import Mathlib

/-!
Shallow embedding of the BudgetAI core (src/budget_ai.py): the keyword
classifier, the record store with its CSV persistence, the analytics
engine and the linear-regression forecaster, together with theorems
settling the specification claims about them.
-/

/-! ## Strings: substring search (Python `re.search` on alternations of
literal keywords is exactly "some keyword occurs as a substring"). -/

/-- Does `pat` occur at the very start of `text` (character lists)? -/
def prefAt : List Char → List Char → Bool
  | [], _ => true
  | _ :: _, [] => false
  | p :: ps, t :: ts => p == t && prefAt ps ts

/-- Does `pat` occur contiguously anywhere inside `text`? -/
def containsSub (pat : List Char) : List Char → Bool
  | [] => prefAt pat []
  | c :: cs => prefAt pat (c :: cs) || containsSub pat cs

/-- Substring test on strings: does `pat` occur inside `text`? -/
def strContains (text pat : String) : Bool :=
  containsSub pat.data text.data

/-- Python `str.lower()`, modelled character by character (the keyword
vocabulary is pure ASCII, where this agrees with Python). -/
def strLower (s : String) : String :=
  { data := s.data.map Char.toLower }

/-! ## ExpenseClassifier (budget_ai.py lines 34-47).
Each regex in `self.patterns` is an alternation of literal keywords, so
`re.search(pattern, text)` holds iff some keyword is a substring of `text`. -/

def foodKeywords : List String :=
  ["zomato", "swiggy", "food", "pizza", "burger", "coffee", "lunch", "dinner", "groceries"]

def transportKeywords : List String :=
  ["uber", "ola", "taxi", "bus", "train", "metro", "petrol", "fuel"]

def rentKeywords : List String :=
  ["rent", "room", "pg", "hostel", "deposit", "lease"]

/-- The ordered (category, keyword list) pairs of `ExpenseClassifier.patterns`;
Python 3.7+ dict iteration preserves this insertion order. -/
def patterns : List (String × List String) :=
  [("Food", foodKeywords), ("Transport", transportKeywords), ("Rent", rentKeywords)]

/-- `re.search(pattern, text)` for an alternation pattern of literal keywords. -/
def reSearch (pat : List String) (text : String) : Bool :=
  pat.any (fun kw => strContains text kw)

/-- First-match loop of `ExpenseClassifier.classify`. -/
def classifyAux : List (String × List String) → String → String
  | [], _ => "Others"
  | (category, pat) :: rest, text =>
    if reSearch pat text then category else classifyAux rest text

/-- `ExpenseClassifier.classify`: lower-case the text, return the first
category whose pattern matches, else the fallback label "Others". -/
def classify (text : String) : String :=
  classifyAux patterns (strLower text)

/-! ## Data model.
An expense record has a float Amount, a Category label and a Date.
Amounts are modelled as exact rationals; timestamps as whole seconds
since the Unix epoch (the spec only asks whole-second granularity). -/

structure Record where
  amount : ℚ
  category : String
  date : ℤ
deriving DecidableEq

/-- The in-memory pandas DataFrame `self.df`: its rows, plus whether the
auxiliary "Days" column (added by `predict_spending`) is present.  The
Days values themselves are never read back (the method recomputes the
column from Date on every call), so only the presence of the column is kept. -/
structure DataFrame where
  rows : List Record
  hasDays : Bool
deriving DecidableEq

/-- The whole store state: in-memory DataFrame plus the persisted CSV
(`none` models an absent or unreadable file). -/
structure BudgetState where
  df : DataFrame
  store : Option (List Record)
deriving DecidableEq

/-- `BudgetAI._load_data`: parse the CSV into a DataFrame; on any read
error fall back to an empty frame (never raises to the caller). -/
def _load_data (store : Option (List Record)) : DataFrame :=
  match store with
  | some rows => { rows := rows, hasDays := false }
  | none => { rows := [], hasDays := false }

/-- `BudgetAI.log_expense` (lines 89-103).  `amount` is the result of
`float(amount)`: `none` models a parse failure (raises, caught by the
`except`, returns False before any mutation).  `writeOk` models whether
`to_csv` succeeds; on a write error the exception is caught and False is
returned, but the row already concatenated into `self.df` stays there.
`date` is the resolved timestamp (`pd.to_datetime(date)` or `now()`). -/
def log_expense (st : BudgetState) (writeOk : Bool) (amount : Option ℚ)
    (description : String) (date : ℤ) : BudgetState × Bool :=
  match amount with
  | none => (st, false)
  | some a =>
    let category := classify description
    let newRows := st.df.rows ++ [{ amount := a, category := category, date := date }]
    let df1 : DataFrame := { rows := newRows, hasDays := st.df.hasDays }
    if writeOk then
      ({ df := df1, store := some newRows }, true)
    else
      ({ df := df1, store := st.store }, false)

/-! ## Calendar: `Series.dt.to_period(M)`.
Timestamps are seconds since the Unix epoch; the civil (year, month) of a
day number is computed by the standard Gregorian-calendar algorithm (all
intermediate divisions act on non-negative operands for any date of the
common era, where every integer-division convention agrees). -/

/-- Gregorian (year, month) of a day count since 1970-01-01. -/
def civilFromDays (z0 : ℤ) : ℤ × ℤ :=
  let z := z0 + 719468
  let era : ℤ := (if 0 ≤ z then z else z - 146096) / 146097
  let doe : ℤ := z - era * 146097
  let yoe : ℤ := (doe - doe / 1460 + doe / 36524 - doe / 146096) / 365
  let y : ℤ := yoe + era * 400
  let doy : ℤ := doe - (365 * yoe + yoe / 4 - yoe / 100)
  let mp : ℤ := (5 * doy + 2) / 153
  let m : ℤ := mp + (if mp < 10 then 3 else -9)
  (if m ≤ 2 then y + 1 else y, m)

/-- `to_period(M)` on a timestamp: its calendar (year, month). -/
def periodM (ts : ℤ) : ℤ × ℤ :=
  civilFromDays (ts.fdiv 86400)

/-- The month bucket a record falls into. -/
def monthKey (r : Record) : ℤ × ℤ :=
  periodM r.date

/-! ## Analytics engine: `BudgetAI.get_analysis` (lines 126-139). -/

/-- Number of records carrying category `c`
(`value_counts` of the Category column at `c`). -/
def countCat (rows : List Record) (c : String) : ℕ :=
  (rows.filter (fun r => r.category == c)).length

/-- The distinct category labels, in order of first appearance. -/
def distinctCats (rows : List Record) : List String :=
  (rows.map Record.category).dedup

/-- The largest per-category occurrence count. -/
def maxCount (rows : List Record) : ℕ :=
  ((distinctCats rows).map (countCat rows)).foldr max 0

/-- The categories tied for the largest count: the value set of
`Series.mode()`. -/
def modeTied (rows : List Record) : List String :=
  (distinctCats rows).filter (fun c => countCat rows c == maxCount rows)

/-- Least element of a list of strings (head of the ascending sort). -/
def listMin : List String → String
  | [] => ""
  | c :: cs => cs.foldl min c

/-- `self.df[Category].mode()[0]`: pandas returns the tied
most-frequent values sorted ascending, so indexing at 0 selects the
lexicographically least of them. -/
def top_category_of (rows : List Record) : String :=
  listMin (modeTied rows)

/-- Sum of the amounts of the records falling in month `k`
(one entry of the groupby-month sum). -/
def monthSum (rows : List Record) (k : ℤ × ℤ) : ℚ :=
  ((rows.filter (fun r => monthKey r == k)).map Record.amount).sum

/-- `df.groupby(df[Date].dt.to_period(M))[Amount].sum().to_dict()`:
one key per month that has at least one record, mapped to the amount sum
of that month. -/
def monthlyOf (rows : List Record) : List ((ℤ × ℤ) × ℚ) :=
  ((rows.map monthKey).dedup).map (fun k => (k, monthSum rows k))

/-- Python `round(x, 2)`: round to the nearest multiple of 1/100
(tie behaviour is immaterial to every claim). -/
def round2 (q : ℚ) : ℚ :=
  ((q * 100 + 1 / 2).floor : ℚ) / 100

structure Analysis where
  total : ℚ
  top_category : String
  monthly : List ((ℤ × ℤ) × ℚ)
deriving DecidableEq

/-- Result of `get_analysis`: either the analysis dict or an error dict. -/
inductive AnalysisResult where
  | err : String → AnalysisResult
  | ok : Analysis → AnalysisResult
deriving DecidableEq

/-- `BudgetAI.get_analysis`: an error dict on an empty frame, otherwise
total, top category and monthly breakdown.  The method only reads
`self.df`, so the state passes through unchanged. -/
def get_analysis (st : BudgetState) : BudgetState × AnalysisResult :=
  (st,
    if st.df.rows.isEmpty then .err "No expenses logged yet"
    else .ok
      { total := round2 ((st.df.rows.map Record.amount).sum)
        top_category := top_category_of st.df.rows
        monthly := monthlyOf st.df.rows })

/-! ## Forecaster: `BudgetAI.predict_spending` (lines 153-171). -/

/-- Least element of a list of integers (`Series.min()`). -/
def minListInt : List ℤ → ℤ
  | [] => 0
  | x :: xs => xs.foldl min x

/-- Greatest element of a list of integers (`Series.max()`). -/
def maxListInt : List ℤ → ℤ
  | [] => 0
  | x :: xs => xs.foldl max x

/-- `(self.df[Date] - self.df[Date].min()).dt.days`: whole days
(floor) between each record and the earliest record. -/
def dayOffsets (rows : List Record) : List ℤ :=
  rows.map (fun r => (r.date - minListInt (rows.map Record.date)).fdiv 86400)

/-- Arithmetic mean of a list of rationals (0 for the empty list). -/
def listMean (l : List ℚ) : ℚ :=
  l.sum / l.length

/-- Centered second moment of the feature column. -/
def sxx (xs : List ℚ) : ℚ :=
  (xs.map (fun x => (x - listMean xs) * (x - listMean xs))).sum

/-- Centered cross moment of feature and target. -/
def sxy (xs ys : List ℚ) : ℚ :=
  ((xs.zip ys).map (fun p => (p.1 - listMean xs) * (p.2 - listMean ys))).sum

/-- Slope fitted by `LinearRegression().fit(X, y)` on one feature: the
least-squares coefficient Sxy / Sxx; on a zero-variance feature the
underlying lstsq returns the minimum-norm solution, coefficient 0. -/
def olsSlope (xs ys : List ℚ) : ℚ :=
  if sxx xs = 0 then 0 else sxy xs ys / sxx xs

/-- Intercept of the fitted line (`fit_intercept=True` centering). -/
def olsIntercept (xs ys : List ℚ) : ℚ :=
  listMean ys - olsSlope xs ys * listMean xs

/-- The regression feature column `df[[Days]]` as rationals. -/
def featureX (rows : List Record) : List ℚ :=
  (dayOffsets rows).map fun z : ℤ => (z : ℚ)

/-- The regression target column `df[Amount]`. -/
def targetY (rows : List Record) : List ℚ :=
  rows.map Record.amount

/-- Result of `predict_spending`: the sentinel message for fewer than 7
records, or the predicted amount together with the trend string. -/
inductive PredictResult where
  | insufficient : String → PredictResult
  | ok : ℚ → String → PredictResult
deriving DecidableEq

/-- `BudgetAI.predict_spending`: with fewer than 7 records return the
sentinel message and touch nothing; otherwise write the Days column into
`self.df`, fit the regression, and report prediction and trend. -/
def predict_spending (st : BudgetState) : BudgetState × PredictResult :=
  if st.df.rows.length < 7 then
    (st, .insufficient "Need at least 7 entries for accurate predictions")
  else
    let rows := st.df.rows
    let slope := olsSlope (featureX rows) (targetY rows)
    let nextDay : ℚ := ((maxListInt (dayOffsets rows) : ℤ) : ℚ) + 1
    let prediction := slope * nextDay + olsIntercept (featureX rows) (targetY rows)
    let trend := if 0 < slope then "↑ Increasing" else "↓ Decreasing"
    ({ df := { rows := rows, hasDays := true }, store := st.store }, .ok prediction trend)

/-! ## Classifier lemmas and claim C4. -/

lemma reSearch_true_of_mem {kw : String} {pat : List String} (hk : kw ∈ pat)
    {t : String} (h : strContains t kw = true) : reSearch pat t = true :=
  List.any_eq_true.2 ⟨kw, hk, h⟩

lemma classify_eq_food {s : String}
    (h : reSearch foodKeywords (strLower s) = true) : classify s = "Food" := by
  simp [classify, patterns, classifyAux, h]

lemma classify_eq_transport {s : String}
    (hf : reSearch foodKeywords (strLower s) = false)
    (h : reSearch transportKeywords (strLower s) = true) : classify s = "Transport" := by
  simp [classify, patterns, classifyAux, h, hf]

lemma classify_eq_rent {s : String}
    (hf : reSearch foodKeywords (strLower s) = false)
    (ht : reSearch transportKeywords (strLower s) = false)
    (h : reSearch rentKeywords (strLower s) = true) : classify s = "Rent" := by
  simp [classify, patterns, classifyAux, h, hf, ht]

lemma classify_eq_others {s : String}
    (hf : reSearch foodKeywords (strLower s) = false)
    (ht : reSearch transportKeywords (strLower s) = false)
    (hr : reSearch rentKeywords (strLower s) = false) : classify s = "Others" := by
  simp [classify, patterns, classifyAux, hf, ht, hr]

/-- C4: classify is total and deterministic (it is a function); a
description whose lower-cased text contains "pizza" is classified
"Food"; one containing "uber" is classified "Transport" provided no
Food keyword also occurs, and one containing "rent" is classified
"Rent" provided no Food or Transport keyword occurs (first matching
category in the declaration order Food, Transport, Rent wins); a text
containing none of the known keywords falls back to "Others". -/
theorem classify_spec (s : String) :
    (strContains (strLower s) "pizza" = true → classify s = "Food") ∧
    (strContains (strLower s) "uber" = true →
      reSearch foodKeywords (strLower s) = false → classify s = "Transport") ∧
    (strContains (strLower s) "rent" = true →
      reSearch foodKeywords (strLower s) = false →
      reSearch transportKeywords (strLower s) = false → classify s = "Rent") ∧
    ((∀ kw ∈ foodKeywords ++ transportKeywords ++ rentKeywords,
        strContains (strLower s) kw = false) → classify s = "Others") := by
  refine ⟨?_, ?_, ?_, ?_⟩
  · intro h
    exact classify_eq_food (reSearch_true_of_mem (by decide) h)
  · intro h hf
    exact classify_eq_transport hf (reSearch_true_of_mem (by decide) h)
  · intro h hf ht
    exact classify_eq_rent hf ht (reSearch_true_of_mem (by decide) h)
  · intro h
    have hf : reSearch foodKeywords (strLower s) = false :=
      List.any_eq_false.2 fun kw hkw =>
        by simpa using h kw (List.mem_append_left _ (List.mem_append_left _ hkw))
    have ht : reSearch transportKeywords (strLower s) = false :=
      List.any_eq_false.2 fun kw hkw =>
        by simpa using h kw (List.mem_append_left _ (List.mem_append_right _ hkw))
    have hr : reSearch rentKeywords (strLower s) = false :=
      List.any_eq_false.2 fun kw hkw =>
        by simpa using h kw (List.mem_append_right _ hkw)
    exact classify_eq_others hf ht hr

/-- C4 witness: concrete classifications through classify_spec. -/
theorem classify_spec_witness :
    classify "Late night Pizza with friends" = "Food" ∧
    classify "Uber to the airport" = "Transport" ∧
    classify "flat rent for June" = "Rent" ∧
    classify "gym membership" = "Others" :=
  ⟨(classify_spec "Late night Pizza with friends").1 (by decide),
   (classify_spec "Uber to the airport").2.1 (by decide) (by decide),
   (classify_spec "flat rent for June").2.2.1 (by decide) (by decide) (by decide),
   (classify_spec "gym membership").2.2.2 (by decide)⟩

/-! ## List order helpers for the mode computation. -/

lemma le_foldr_max (l : List ℕ) : ∀ x ∈ l, x ≤ l.foldr max 0 := by
  induction l with
  | nil => intro x hx; cases hx
  | cons a l ih =>
    intro x hx
    rcases List.mem_cons.1 hx with h | h
    · subst h; exact le_max_left _ _
    · exact le_trans (ih x h) (le_max_right _ _)

lemma foldr_max_attained (l : List ℕ) :
    l.foldr max 0 = 0 ∨ l.foldr max 0 ∈ l := by
  induction l with
  | nil => exact Or.inl rfl
  | cons a l ih =>
    rw [List.foldr_cons]
    rcases max_choice a (l.foldr max 0) with h | h
    · exact Or.inr (by rw [h]; exact List.mem_cons_self _ _)
    · rcases ih with h0 | hmem
      · exact Or.inl (by rw [h, h0])
      · exact Or.inr (by rw [h]; exact List.mem_cons_of_mem _ hmem)

lemma foldl_min_mem (cs : List String) : ∀ c : String, cs.foldl min c ∈ c :: cs := by
  induction cs with
  | nil => intro c; simp
  | cons b bs ih =>
    intro c
    rw [List.foldl_cons]
    rcases List.mem_cons.1 (ih (min c b)) with h2 | h2
    · rw [h2]
      rcases min_choice c b with h | h <;> rw [h] <;> simp
    · exact List.mem_cons_of_mem _ (List.mem_cons_of_mem _ h2)

lemma foldl_min_le (cs : List String) :
    ∀ c x, x ∈ c :: cs → cs.foldl min c ≤ x := by
  induction cs with
  | nil =>
    intro c x hx
    rcases List.mem_cons.1 hx with h | h
    · rw [h]; exact le_refl c
    · cases h
  | cons b bs ih =>
    intro c x hx
    rw [List.foldl_cons]
    have hbase : bs.foldl min (min c b) ≤ min c b :=
      ih (min c b) (min c b) (List.mem_cons_self _ _)
    rcases List.mem_cons.1 hx with h | h
    · rw [h]
      exact le_trans hbase (min_le_left _ _)
    · rcases List.mem_cons.1 h with h2 | h2
      · rw [h2]
        exact le_trans hbase (min_le_right _ _)
      · exact ih (min c b) x (List.mem_cons_of_mem _ h2)

lemma listMin_mem {l : List String} (h : l ≠ []) : listMin l ∈ l := by
  cases l with
  | nil => exact absurd rfl h
  | cons c cs => exact foldl_min_mem cs c

lemma listMin_le {l : List String} : ∀ x ∈ l, listMin l ≤ x := by
  cases l with
  | nil => intro x hx; cases hx
  | cons c cs => intro x hx; exact foldl_min_le cs c x hx

/-! ## Mode of the category column. -/

lemma distinctCats_ne_nil {rows : List Record} (h : rows ≠ []) :
    distinctCats rows ≠ [] := by
  intro hd
  rcases List.map_eq_nil_iff.1 ((List.dedup_eq_nil _).1 hd) with h1
  exact h h1

lemma countCat_pos {rows : List Record} {c : String}
    (hc : c ∈ distinctCats rows) : 0 < countCat rows c := by
  rcases List.mem_map.1 (List.mem_dedup.1 hc) with ⟨r, hr, hrc⟩
  have : r ∈ rows.filter (fun r => r.category == c) :=
    List.mem_filter.2 ⟨hr, by simp [hrc]⟩
  exact List.length_pos.2 (List.ne_nil_of_mem this)

lemma countCat_le_maxCount {rows : List Record} {c : String}
    (hc : c ∈ distinctCats rows) : countCat rows c ≤ maxCount rows :=
  le_foldr_max _ _ (List.mem_map.2 ⟨c, hc, rfl⟩)

lemma maxCount_attained {rows : List Record} (h : rows ≠ []) :
    ∃ c ∈ distinctCats rows, countCat rows c = maxCount rows := by
  rcases foldr_max_attained ((distinctCats rows).map (countCat rows)) with h0 | hmem
  · rcases List.exists_mem_of_ne_nil _ (distinctCats_ne_nil h) with ⟨c, hc⟩
    have h1 := countCat_pos hc
    have h2 := countCat_le_maxCount hc
    rw [maxCount] at h2
    omega
  · rcases List.mem_map.1 hmem with ⟨c, hc, hcc⟩
    exact ⟨c, hc, hcc⟩

lemma mem_modeTied_iff {rows : List Record} {c : String} :
    c ∈ modeTied rows ↔ c ∈ distinctCats rows ∧ countCat rows c = maxCount rows := by
  simp [modeTied, List.mem_filter]

lemma modeTied_ne_nil {rows : List Record} (h : rows ≠ []) : modeTied rows ≠ [] := by
  rcases maxCount_attained h with ⟨c, hc, hcc⟩
  exact List.ne_nil_of_mem (mem_modeTied_iff.2 ⟨hc, hcc⟩)

lemma top_category_of_mem_modeTied {rows : List Record} (h : rows ≠ []) :
    top_category_of rows ∈ modeTied rows :=
  listMin_mem (modeTied_ne_nil h)

lemma countCat_top_eq_maxCount {rows : List Record} (h : rows ≠ []) :
    countCat rows (top_category_of rows) = maxCount rows :=
  (mem_modeTied_iff.1 (top_category_of_mem_modeTied h)).2

lemma mem_distinctCats_iff {rows : List Record} {c : String} :
    c ∈ distinctCats rows ↔ c ∈ rows.map Record.category :=
  List.mem_dedup

/-- C6: for a non-empty record collection the top_category returned by
get_analysis is a category label occurring among the records, its
occurrence count is maximal, and among the labels tied for that maximal
count it is the alphabetically (lexicographically) least. -/
theorem get_analysis_top_category (st : BudgetState) (h : st.df.rows ≠ []) :
    ∃ a : Analysis, (get_analysis st).2 = .ok a ∧
      a.top_category ∈ st.df.rows.map Record.category ∧
      (∀ c ∈ st.df.rows.map Record.category,
        countCat st.df.rows c ≤ countCat st.df.rows a.top_category) ∧
      (∀ c ∈ st.df.rows.map Record.category,
        countCat st.df.rows c = countCat st.df.rows a.top_category →
          a.top_category ≤ c) := by
  have he : st.df.rows.isEmpty = false := by
    cases hr : st.df.rows with
    | nil => exact absurd hr h
    | cons r rs => simp [hr]
  refine ⟨{ total := round2 ((st.df.rows.map Record.amount).sum)
            top_category := top_category_of st.df.rows
            monthly := monthlyOf st.df.rows }, ?_, ?_, ?_, ?_⟩
  · simp [get_analysis, he]
  · exact mem_distinctCats_iff.1
      (mem_modeTied_iff.1 (top_category_of_mem_modeTied h)).1
  · intro c hc
    rw [countCat_top_eq_maxCount h]
    exact countCat_le_maxCount (mem_distinctCats_iff.2 hc)
  · intro c hc hcc
    rw [countCat_top_eq_maxCount h] at hcc
    exact listMin_le c (mem_modeTied_iff.2 ⟨mem_distinctCats_iff.2 hc, hcc⟩)

/-- C6 witness: a two-way tie between Food and Transport resolves to the
alphabetically first label. -/
theorem get_analysis_top_category_witness :
    ∃ a : Analysis,
      (get_analysis ⟨⟨[⟨12, "Transport", 0⟩, ⟨7, "Food", 0⟩], false⟩, none⟩).2 = .ok a ∧
      a.top_category ∈
        ([⟨12, "Transport", 0⟩, ⟨7, "Food", 0⟩] : List Record).map Record.category ∧
      (∀ c ∈ ([⟨12, "Transport", 0⟩, ⟨7, "Food", 0⟩] : List Record).map Record.category,
        countCat [⟨12, "Transport", 0⟩, ⟨7, "Food", 0⟩] c ≤
          countCat [⟨12, "Transport", 0⟩, ⟨7, "Food", 0⟩] a.top_category) ∧
      (∀ c ∈ ([⟨12, "Transport", 0⟩, ⟨7, "Food", 0⟩] : List Record).map Record.category,
        countCat [⟨12, "Transport", 0⟩, ⟨7, "Food", 0⟩] c =
          countCat [⟨12, "Transport", 0⟩, ⟨7, "Food", 0⟩] a.top_category →
            a.top_category ≤ c) :=
  get_analysis_top_category ⟨⟨[⟨12, "Transport", 0⟩, ⟨7, "Food", 0⟩], false⟩, none⟩
    (by decide)

/-! ## Summation helpers for the monthly breakdown. -/

lemma sum_map_add (l : List (ℤ × ℤ)) (f g : ℤ × ℤ → ℚ) :
    (l.map fun k => f k + g k).sum = (l.map f).sum + (l.map g).sum := by
  induction l with
  | nil => simp
  | cons k ks ih => simp [ih]; ring

lemma sum_ite_of_not_mem (ks : List (ℤ × ℤ)) (a : ℤ × ℤ) (v : ℚ) (ha : a ∉ ks) :
    (ks.map fun k => if a = k then v else 0).sum = 0 := by
  induction ks with
  | nil => simp
  | cons k ks ih =>
    have hne : a ≠ k := fun h => ha (h ▸ List.mem_cons_self _ _)
    have hks : a ∉ ks := fun h => ha (List.mem_cons_of_mem _ h)
    simp [hne, ih hks]

lemma sum_ite_of_nodup_mem (ks : List (ℤ × ℤ)) (a : ℤ × ℤ) (v : ℚ)
    (hnd : ks.Nodup) (ha : a ∈ ks) :
    (ks.map fun k => if a = k then v else 0).sum = v := by
  induction ks with
  | nil => cases ha
  | cons k ks ih =>
    rcases List.mem_cons.1 ha with h | h
    · subst h
      have : a ∉ ks := (List.nodup_cons.1 hnd).1
      simp [sum_ite_of_not_mem ks a v this]
    · have hne : a ≠ k := fun he => (List.nodup_cons.1 hnd).1 (he ▸ h)
      simp [hne, ih (List.nodup_cons.1 hnd).2 h]

lemma monthSum_nil (k : ℤ × ℤ) : monthSum [] k = 0 := rfl

lemma monthSum_cons (r : Record) (rs : List Record) (k : ℤ × ℤ) :
    monthSum (r :: rs) k
      = (if monthKey r = k then r.amount else 0) + monthSum rs k := by
  by_cases h : monthKey r = k
  · simp [monthSum, List.filter_cons, h]
  · simp [monthSum, List.filter_cons, h]

/-- Summing the per-month fiber sums over a duplicate-free key list that
covers every record yields the total amount sum. -/
lemma fiber_sum (ks : List (ℤ × ℤ)) (rows : List Record)
    (hnd : ks.Nodup) (hcov : ∀ r ∈ rows, monthKey r ∈ ks) :
    (ks.map fun k => monthSum rows k).sum = (rows.map Record.amount).sum := by
  induction rows with
  | nil => simp [monthSum_nil]
  | cons r rs ih =>
    have hmap : (ks.map fun k => monthSum (r :: rs) k)
        = ks.map fun k => (if monthKey r = k then r.amount else 0) + monthSum rs k := by
      exact List.map_congr_left fun k _ => monthSum_cons r rs k
    rw [hmap, sum_map_add, sum_ite_of_nodup_mem ks (monthKey r) r.amount hnd
          (hcov r (List.mem_cons_self _ _)),
        ih fun x hx => hcov x (List.mem_cons_of_mem _ hx)]
    simp

lemma monthSum_eq_ite_sum (rows : List Record) (k : ℤ × ℤ) :
    monthSum rows k
      = (rows.map fun r => if monthKey r = k then r.amount else 0).sum := by
  induction rows with
  | nil => simp [monthSum_nil]
  | cons r rs ih => rw [monthSum_cons, List.map_cons, List.sum_cons, ih]

lemma monthlyOf_keys (rows : List Record) :
    (monthlyOf rows).map Prod.fst = (rows.map monthKey).dedup := by
  simp [monthlyOf, List.map_map]
  exact List.map_id _

/-- C5: for a non-empty record collection get_analysis returns a total
equal to the amount sum rounded to 2 decimals, and a monthly mapping
whose keys are exactly the year-months containing at least one record
and whose value at each key is the sum of the amounts of the records of
that month. -/
theorem get_analysis_total_monthly (st : BudgetState) (h : st.df.rows ≠ []) :
    ∃ a : Analysis, (get_analysis st).2 = .ok a ∧
      a.total = round2 ((st.df.rows.map Record.amount).sum) ∧
      (∀ k : ℤ × ℤ,
        k ∈ a.monthly.map Prod.fst ↔ ∃ r ∈ st.df.rows, monthKey r = k) ∧
      (∀ k v, (k, v) ∈ a.monthly →
        v = (st.df.rows.map fun r => if monthKey r = k then r.amount else 0).sum) := by
  have he : st.df.rows.isEmpty = false := by
    cases hr : st.df.rows with
    | nil => exact absurd hr h
    | cons r rs => simp [hr]
  refine ⟨{ total := round2 ((st.df.rows.map Record.amount).sum)
            top_category := top_category_of st.df.rows
            monthly := monthlyOf st.df.rows }, ?_, rfl, ?_, ?_⟩
  · simp [get_analysis, he]
  · intro k
    rw [monthlyOf_keys, List.mem_dedup]
    constructor
    · intro hk
      rcases List.mem_map.1 hk with ⟨r, hr, hrk⟩
      exact ⟨r, hr, hrk⟩
    · intro hk
      rcases hk with ⟨r, hr, hrk⟩
      exact List.mem_map.2 ⟨r, hr, hrk⟩
  · intro k v hkv
    rcases List.mem_map.1 hkv with ⟨k0, _, hk0⟩
    have hk : k0 = k := congrArg Prod.fst hk0
    have hv : monthSum st.df.rows k0 = v := congrArg Prod.snd hk0
    rw [← hv, hk, monthSum_eq_ite_sum]

/-- C5 witness: the spec example collection [100, 250.5, 49.5] in one
month instantiates the theorem. -/
theorem get_analysis_total_monthly_witness :
    ∃ a : Analysis,
      (get_analysis ⟨⟨[⟨100, "Food", 0⟩, ⟨(501 : ℚ) / 2, "Food", 0⟩,
        ⟨(99 : ℚ) / 2, "Food", 0⟩], false⟩, none⟩).2 = .ok a ∧
      a.total = round2 ((([⟨100, "Food", 0⟩, ⟨(501 : ℚ) / 2, "Food", 0⟩,
        ⟨(99 : ℚ) / 2, "Food", 0⟩] : List Record).map Record.amount).sum) ∧
      (∀ k : ℤ × ℤ,
        k ∈ a.monthly.map Prod.fst ↔ ∃ r ∈ ([⟨100, "Food", 0⟩, ⟨(501 : ℚ) / 2, "Food", 0⟩,
          ⟨(99 : ℚ) / 2, "Food", 0⟩] : List Record), monthKey r = k) ∧
      (∀ k v, (k, v) ∈ a.monthly →
        v = (([⟨100, "Food", 0⟩, ⟨(501 : ℚ) / 2, "Food", 0⟩,
          ⟨(99 : ℚ) / 2, "Food", 0⟩] : List Record).map
            fun r => if monthKey r = k then r.amount else 0).sum) :=
  get_analysis_total_monthly ⟨⟨[⟨100, "Food", 0⟩, ⟨(501 : ℚ) / 2, "Food", 0⟩,
    ⟨(99 : ℚ) / 2, "Food", 0⟩], false⟩, none⟩ (by decide)

/-- C10: for a non-empty record collection the values of the monthly
breakdown sum to the exact (unrounded) total amount sum: the month
buckets partition the records. -/
theorem monthly_partitions_total (st : BudgetState) (h : st.df.rows ≠ []) :
    ∃ a : Analysis, (get_analysis st).2 = .ok a ∧
      (a.monthly.map Prod.snd).sum = (st.df.rows.map Record.amount).sum := by
  have he : st.df.rows.isEmpty = false := by
    cases hr : st.df.rows with
    | nil => exact absurd hr h
    | cons r rs => simp [hr]
  refine ⟨{ total := round2 ((st.df.rows.map Record.amount).sum)
            top_category := top_category_of st.df.rows
            monthly := monthlyOf st.df.rows }, ?_, ?_⟩
  · simp [get_analysis, he]
  · have hmap : (monthlyOf st.df.rows).map Prod.snd
        = ((st.df.rows.map monthKey).dedup).map fun k => monthSum st.df.rows k := by
      simp [monthlyOf]
    rw [hmap]
    exact fiber_sum _ _ (List.nodup_dedup _)
      fun r hr => List.mem_dedup.2 (List.mem_map.2 ⟨r, hr, rfl⟩)

/-- C10 witness: two records in different months (2024-01-05 and
2024-02-10) instantiate the theorem. -/
theorem monthly_partitions_total_witness :
    ∃ a : Analysis,
      (get_analysis ⟨⟨[⟨100, "Others", 19727 * 86400⟩,
        ⟨200, "Others", 19763 * 86400⟩], false⟩, none⟩).2 = .ok a ∧
      (a.monthly.map Prod.snd).sum
        = (([⟨100, "Others", 19727 * 86400⟩,
            ⟨200, "Others", 19763 * 86400⟩] : List Record).map Record.amount).sum :=
  monthly_partitions_total ⟨⟨[⟨100, "Others", 19727 * 86400⟩,
    ⟨200, "Others", 19763 * 86400⟩], false⟩, none⟩ (by decide)

/-! ## Forecaster lemmas and claims C7, C8. -/

lemma sum_of_all_eq (l : List ℚ) (c : ℚ) (h : ∀ x ∈ l, x = c) :
    l.sum = l.length * c := by
  induction l with
  | nil => simp
  | cons a t ih =>
    rw [List.sum_cons, h a (List.mem_cons_self _ _),
        ih fun x hx => h x (List.mem_cons_of_mem _ hx)]
    push_cast [List.length_cons]
    ring

lemma listMean_of_all_eq {l : List ℚ} {c : ℚ} (hne : l ≠ [])
    (h : ∀ x ∈ l, x = c) : listMean l = c := by
  have hl : (l.length : ℚ) ≠ 0 := by
    have h0 : l.length ≠ 0 := fun h0 => hne (List.length_eq_zero.1 h0)
    exact Nat.cast_ne_zero.2 h0
  rw [listMean, sum_of_all_eq l c h, mul_comm, mul_div_assoc, div_self hl, mul_one]

lemma sxx_eq_zero_of_all_eq {xs : List ℚ}
    (h : ∀ a ∈ xs, ∀ b ∈ xs, a = b) : sxx xs = 0 := by
  cases xs with
  | nil => simp [sxx]
  | cons x t =>
    have hx : ∀ y ∈ x :: t, y = x := fun y hy => h y hy x (List.mem_cons_self _ _)
    have hm : listMean (x :: t) = x := listMean_of_all_eq (by simp) hx
    simp only [sxx]
    refine List.sum_eq_zero ?_
    intro z hz
    rcases List.mem_map.1 hz with ⟨y, hy, hyz⟩
    rw [← hyz, hm, hx y hy]
    ring

lemma olsSlope_dayOffsets_zero {rows : List Record}
    (hall : ∀ a ∈ dayOffsets rows, ∀ b ∈ dayOffsets rows, a = b) :
    olsSlope (featureX rows) (targetY rows) = 0 := by
  have h2 : ∀ a ∈ featureX rows, ∀ b ∈ featureX rows, a = b := by
    intro a ha b hb
    rcases List.mem_map.1 ha with ⟨za, hza, hza2⟩
    rcases List.mem_map.1 hb with ⟨zb, hzb, hzb2⟩
    rw [← hza2, ← hzb2]
    exact congrArg (fun z : ℤ => (z : ℚ)) (hall za hza zb hzb)
  simp [olsSlope, sxx_eq_zero_of_all_eq h2]

/-- C7: with at least 7 records predict_spending reports trend
"↑ Increasing" exactly when the fitted least-squares slope over the
(day offset, amount) pairs is strictly positive and "↓ Decreasing"
otherwise (zero slope included); when all records fall on the same day
(all day offsets equal) no division by zero occurs: the slope is 0 and
the trend is "↓ Decreasing". -/
theorem predict_spending_trend (st : BudgetState) (h : 7 ≤ st.df.rows.length) :
    ∃ p t, (predict_spending st).2 = .ok p t ∧
      (t = "↑ Increasing" ↔ 0 < olsSlope (featureX st.df.rows) (targetY st.df.rows)) ∧
      (t = "↓ Decreasing" ↔ olsSlope (featureX st.df.rows) (targetY st.df.rows) ≤ 0) ∧
      ((∀ a ∈ dayOffsets st.df.rows, ∀ b ∈ dayOffsets st.df.rows, a = b) →
        olsSlope (featureX st.df.rows) (targetY st.df.rows) = 0 ∧
          t = "↓ Decreasing") := by
  have hn : ¬ st.df.rows.length < 7 := not_lt.2 h
  have he : (predict_spending st).2 =
      .ok (olsSlope (featureX st.df.rows) (targetY st.df.rows) *
            (((maxListInt (dayOffsets st.df.rows) : ℤ) : ℚ) + 1) +
            olsIntercept (featureX st.df.rows) (targetY st.df.rows))
        (if 0 < olsSlope (featureX st.df.rows) (targetY st.df.rows)
          then "↑ Increasing" else "↓ Decreasing") := by
    simp [predict_spending, hn]
  by_cases hs : 0 < olsSlope (featureX st.df.rows) (targetY st.df.rows)
  · rw [if_pos hs] at he
    exact ⟨_, _, he, iff_of_true rfl hs, iff_of_false (by decide) (not_le.2 hs),
      fun hall => absurd (olsSlope_dayOffsets_zero hall) (ne_of_gt hs)⟩
  · rw [if_neg hs] at he
    exact ⟨_, _, he, iff_of_false (by decide) hs, iff_of_true rfl (not_lt.1 hs),
      fun hall => ⟨olsSlope_dayOffsets_zero hall, rfl⟩⟩

def rowsC7 : List Record :=
  [⟨1, "Others", 0⟩, ⟨2, "Others", 0⟩, ⟨3, "Others", 0⟩, ⟨4, "Others", 0⟩,
   ⟨5, "Others", 0⟩, ⟨6, "Others", 0⟩, ⟨7, "Others", 0⟩]

/-- C7 witness: seven same-day records instantiate the theorem. -/
theorem predict_spending_trend_witness :
    ∃ p t, (predict_spending ⟨⟨rowsC7, false⟩, none⟩).2 = .ok p t ∧
      (t = "↑ Increasing" ↔ 0 < olsSlope (featureX rowsC7) (targetY rowsC7)) ∧
      (t = "↓ Decreasing" ↔ olsSlope (featureX rowsC7) (targetY rowsC7) ≤ 0) ∧
      ((∀ a ∈ dayOffsets rowsC7, ∀ b ∈ dayOffsets rowsC7, a = b) →
        olsSlope (featureX rowsC7) (targetY rowsC7) = 0 ∧ t = "↓ Decreasing") :=
  predict_spending_trend ⟨⟨rowsC7, false⟩, none⟩ (by decide)

/-- C8: insufficient data is a normal result, not a fault: with fewer
than 7 records predict_spending returns exactly the sentinel message and
never a numeric prediction, and on an empty collection get_analysis
returns exactly the no-data error result and never an analysis (so never
a zero total). -/
theorem insufficient_data_results (st1 st2 : BudgetState)
    (h1 : st1.df.rows.length < 7) (h2 : st2.df.rows = []) :
    ((predict_spending st1).2
        = .insufficient "Need at least 7 entries for accurate predictions" ∧
      ∀ p t, (predict_spending st1).2 ≠ .ok p t) ∧
    ((get_analysis st2).2 = .err "No expenses logged yet" ∧
      ∀ a, (get_analysis st2).2 ≠ .ok a) := by
  have e1 : (predict_spending st1).2
      = .insufficient "Need at least 7 entries for accurate predictions" := by
    simp [predict_spending, h1]
  have e2 : (get_analysis st2).2 = .err "No expenses logged yet" := by
    simp [get_analysis, h2]
  refine ⟨⟨e1, ?_⟩, ⟨e2, ?_⟩⟩
  · intro p t hpt
    rw [e1] at hpt
    exact PredictResult.noConfusion hpt
  · intro a ha
    rw [e2] at ha
    exact AnalysisResult.noConfusion ha

/-- C8 witness: the empty store instantiates both halves. -/
theorem insufficient_data_results_witness :
    ((predict_spending ⟨⟨[], false⟩, none⟩).2
        = .insufficient "Need at least 7 entries for accurate predictions" ∧
      ∀ p t, (predict_spending ⟨⟨[], false⟩, none⟩).2 ≠ .ok p t) ∧
    ((get_analysis ⟨⟨[], false⟩, none⟩).2 = .err "No expenses logged yet" ∧
      ∀ a, (get_analysis ⟨⟨[], false⟩, none⟩).2 ≠ .ok a) :=
  insufficient_data_results ⟨⟨[], false⟩, none⟩ ⟨⟨[], false⟩, none⟩ (by decide) rfl

/-! ## Record store claims C9, C1, C2, C3. -/

/-- C9: every successfully appended record round-trips through the
persisted store: after a log_expense call that returns success, loading
the persisted file yields a collection containing a record whose amount,
category and (whole-second) timestamp equal the appended ones. -/
theorem append_load_roundtrip (st : BudgetState) (w : Bool) (a : ℚ)
    (desc : String) (d : ℤ)
    (h : (log_expense st w (some a) desc d).2 = true) :
    ∃ r ∈ (_load_data (log_expense st w (some a) desc d).1.store).rows,
      r.amount = a ∧ r.category = classify desc ∧ r.date = d := by
  cases w with
  | false => simp [log_expense] at h
  | true =>
    refine ⟨{ amount := a, category := classify desc, date := d }, ?_, rfl, rfl, rfl⟩
    simp [log_expense, _load_data]

/-- C9 witness: a concrete append of 5 for "pizza" round-trips. -/
theorem append_load_roundtrip_witness :
    ∃ r ∈ (_load_data
        (log_expense ⟨⟨[], false⟩, none⟩ true (some 5) "pizza" 0).1.store).rows,
      r.amount = 5 ∧ r.category = classify "pizza" ∧ r.date = 0 :=
  append_load_roundtrip ⟨⟨[], false⟩, none⟩ true 5 "pizza" 0 (by decide)

/-- C1 counterexample: starting from the empty store, an append whose
persistence write fails returns failure, yet the in-memory record count
has grown from 0 to 1 — the concatenated row is not rolled back. -/
theorem log_expense_no_rollback :
    (log_expense ⟨⟨[], false⟩, none⟩ false (some 5) "pizza" 0).2 = false ∧
    (log_expense ⟨⟨[], false⟩, none⟩ false (some 5) "pizza" 0).1.df.rows.length = 1 ∧
    (⟨⟨[], false⟩, none⟩ : BudgetState).df.rows.length = 0 := by
  refine ⟨rfl, rfl, rfl⟩

/-- C1 amended: a validation failure (unparsable amount) is rejected
before any mutation, returning failure with the whole state unchanged; a
persistence write failure also returns failure and leaves the persisted
store unchanged, but the in-memory collection keeps the appended record
(count grows by one) — the code performs no rollback. -/
theorem log_expense_failure_behavior (st : BudgetState) (w : Bool) (a : ℚ)
    (desc : String) (d : ℤ) :
    log_expense st w none desc d = (st, false) ∧
    (log_expense st false (some a) desc d).2 = false ∧
    (log_expense st false (some a) desc d).1.store = st.store ∧
    (log_expense st false (some a) desc d).1.df.rows
      = st.df.rows ++ [{ amount := a, category := classify desc, date := d }] :=
  ⟨rfl, rfl, rfl, rfl⟩

/-- C2 counterexample: a negative amount together with an empty
description is accepted: the call returns success and creates the
record, instead of rejecting it with a failure. -/
theorem log_expense_accepts_invalid :
    (log_expense ⟨⟨[], false⟩, none⟩ true (some (-5)) "" 0).2 = true ∧
    (log_expense ⟨⟨[], false⟩, none⟩ true (some (-5)) "" 0).1.df.rows
      = [{ amount := -5, category := "Others", date := 0 }] := by
  refine ⟨rfl, by decide⟩

/-- C2 amended: only a non-numeric amount (a float() parse failure) is
rejected, before any state mutation and with failure returned; any
parsable amount — negative included — and any description — empty
included — are accepted: the call returns success and appends the
record. -/
theorem log_expense_validation (st : BudgetState) (w : Bool) (a : ℚ)
    (desc : String) (d : ℤ) :
    log_expense st w none desc d = (st, false) ∧
    (log_expense st true (some a) desc d).2 = true ∧
    (log_expense st true (some a) desc d).1.df.rows
      = st.df.rows ++ [{ amount := a, category := classify desc, date := d }] :=
  ⟨rfl, rfl, rfl⟩

def rowsC3 : List Record :=
  [⟨10, "Others", 0⟩, ⟨11, "Others", 86400⟩, ⟨12, "Others", 172800⟩,
   ⟨13, "Others", 259200⟩, ⟨14, "Others", 345600⟩, ⟨15, "Others", 432000⟩,
   ⟨16, "Others", 518400⟩]

/-- C3 counterexample: on a 7-record store, predict_spending mutates the
in-memory DataFrame — it adds the Days column — so its resulting state
differs from the input state. -/
theorem predict_spending_mutates_df :
    (predict_spending ⟨⟨rowsC3, false⟩, none⟩).1 ≠ (⟨⟨rowsC3, false⟩, none⟩ : BudgetState) ∧
    (predict_spending ⟨⟨rowsC3, false⟩, none⟩).1.df.hasDays = true ∧
    (⟨⟨rowsC3, false⟩, none⟩ : BudgetState).df.hasDays = false := by
  refine ⟨?_, by decide, rfl⟩
  intro hcon
  have h2 : (predict_spending ⟨⟨rowsC3, false⟩, none⟩).1.df.hasDays
      = (⟨⟨rowsC3, false⟩, none⟩ : BudgetState).df.hasDays := by rw [hcon]
  rw [show (predict_spending ⟨⟨rowsC3, false⟩, none⟩).1.df.hasDays = true by decide] at h2
  exact Bool.noConfusion h2

/-- C3 amended: get_analysis is pure (state passes through untouched);
predict_spending never touches the persisted store and never changes the
records, their fields or their order, and with fewer than 7 records it
is pure as well, but with at least 7 records it adds the Days column to
the in-memory DataFrame. -/
theorem read_ops_frame (st : BudgetState) :
    (get_analysis st).1 = st ∧
    (predict_spending st).1.store = st.store ∧
    (predict_spending st).1.df.rows = st.df.rows ∧
    (st.df.rows.length < 7 → (predict_spending st).1 = st) ∧
    (7 ≤ st.df.rows.length → (predict_spending st).1.df.hasDays = true) := by
  refine ⟨rfl, ?_, ?_, ?_, ?_⟩
  · by_cases hlt : st.df.rows.length < 7 <;> simp [predict_spending, hlt]
  · by_cases hlt : st.df.rows.length < 7 <;> simp [predict_spending, hlt]
  · intro hlt
    simp [predict_spending, hlt]
  · intro h7
    have hlt : ¬ st.df.rows.length < 7 := not_lt.2 h7
    simp [predict_spending, hlt]

/-- C3 amended witness: on the 7-record store the Days column is present
after predict_spending. -/
theorem read_ops_frame_witness :
    (predict_spending ⟨⟨rowsC3, false⟩, none⟩).1.df.hasDays = true :=
  (read_ops_frame ⟨⟨rowsC3, false⟩, none⟩).2.2.2.2 (by decide)
